import Mathlib

/-!
Verification development for the real-time market-data server
(`src/realtime/src/server.js`) of the Integrated Financial Trading Platform.

The server keeps a JavaScript `Map` from subscription keys (`assetType:symbol`
strings) to `Set`s of socket ids, a `Map` from subscription keys to interval
timer handles, and reacts to `subscribe` / `unsubscribe` / `disconnect`
socket events.  On each interval tick it invokes the asset-class handler,
writes a successful result to Redis with `setEx` (TTL 60), and emits a
`market_update` to every current subscriber of the key.

JavaScript `Map`s are modelled as insertion-ordered association lists,
JavaScript `Set`s as duplicate-free insertion-ordered lists.  Live interval
timers (created by `setInterval`, destroyed by `clearInterval`) are modelled
explicitly as a list of `LiveTimer` records, separate from the
`pollingTimers` map, so that a timer that was overwritten in the map without
being cleared is still visible as live.
-/

namespace Realtime

/-! ## Association-list model of JavaScript `Map` -/

/-- Lookup in an insertion-ordered association list (`Map.get` /
`Map.has`). -/
def alookup {β : Type} : List (String × β) → String → Option β
  | [], _ => none
  | (k', v') :: rest, k => if k' = k then some v' else alookup rest k

/-- `Map.set`: replace the binding in place if the key is present, else
append a new binding at the end (JS `Map` preserves insertion order). -/
def aset {β : Type} : List (String × β) → String → β → List (String × β)
  | [], k, v => [(k, v)]
  | (k', v') :: rest, k, v =>
      if k' = k then (k, v) :: rest else (k', v') :: aset rest k v

/-- `Map.delete`: remove the binding for the key. -/
def aerase {β : Type} : List (String × β) → String → List (String × β)
  | [], _ => []
  | (k', v') :: rest, k => if k' = k then rest else (k', v') :: aerase rest k

/-- The keys of an association list, in order. -/
def akeys {β : Type} (m : List (String × β)) : List String :=
  m.map Prod.fst

theorem alookup_aset_self {β : Type} (m : List (String × β)) (k : String) (v : β) :
    alookup (aset m k v) k = some v := by
  induction m with
  | nil => simp [aset, alookup]
  | cons hd tl ih =>
    obtain ⟨k', v'⟩ := hd
    by_cases h : k' = k
    · simp [aset, alookup, h]
    · simp [aset, alookup, h, ih]

theorem alookup_aset_ne {β : Type} (m : List (String × β)) (k k' : String) (v : β)
    (h : k ≠ k') : alookup (aset m k v) k' = alookup m k' := by
  induction m with
  | nil => simp [aset, alookup, h]
  | cons hd tl ih =>
    obtain ⟨k₀, v₀⟩ := hd
    by_cases h₀ : k₀ = k
    · subst h₀
      simp [aset, alookup, h]
    · simp [aset, alookup, h₀, ih]

theorem alookup_aerase_ne {β : Type} (m : List (String × β)) (k k' : String)
    (h : k ≠ k') : alookup (aerase m k) k' = alookup m k' := by
  induction m with
  | nil => simp [aerase]
  | cons hd tl ih =>
    obtain ⟨k₀, v₀⟩ := hd
    by_cases h₀ : k₀ = k
    · subst h₀
      simp [aerase, alookup, h]
    · simp [aerase, alookup, h₀, ih]

theorem aerase_sublist {β : Type} (m : List (String × β)) (k : String) :
    (aerase m k).Sublist m := by
  induction m with
  | nil => simp [aerase]
  | cons hd tl ih =>
    obtain ⟨k₀, v₀⟩ := hd
    by_cases h₀ : k₀ = k
    · simp only [aerase, if_pos h₀]
      exact List.sublist_cons_self (k₀, v₀) tl
    · simpa [aerase, h₀] using List.Sublist.cons₂ (k₀, v₀) ih

theorem akeys_aset_of_mem {β : Type} (m : List (String × β)) (k : String) (v : β)
    (h : (alookup m k).isSome) : akeys (aset m k v) = akeys m := by
  induction m with
  | nil => simp [alookup] at h
  | cons hd tl ih =>
    obtain ⟨k₀, v₀⟩ := hd
    by_cases h₀ : k₀ = k
    · simp [aset, akeys, h₀]
    · simp [alookup, h₀] at h
      simp [aset, akeys, h₀] at ih ⊢
      exact ih h

theorem akeys_aset_of_not_mem {β : Type} (m : List (String × β)) (k : String) (v : β)
    (h : alookup m k = none) : akeys (aset m k v) = akeys m ++ [k] := by
  induction m with
  | nil => simp [aset, akeys]
  | cons hd tl ih =>
    obtain ⟨k₀, v₀⟩ := hd
    by_cases h₀ : k₀ = k
    · simp [alookup, h₀] at h
    · simp [alookup, h₀] at h
      simp [aset, akeys, h₀] at ih ⊢
      exact ih h

theorem alookup_isSome_of_mem_akeys {β : Type} (m : List (String × β)) (k : String)
    (h : k ∈ akeys m) : (alookup m k).isSome := by
  induction m with
  | nil => simp [akeys] at h
  | cons hd tl ih =>
    obtain ⟨k₀, v₀⟩ := hd
    by_cases h₀ : k₀ = k
    · simp [alookup, h₀]
    · have hk : k ∈ akeys tl := by
        simp only [akeys, List.map_cons, List.mem_cons] at h
        rcases h with h | h
        · exact absurd h.symm h₀
        · simpa [akeys] using h
      simpa [alookup, h₀] using ih hk

theorem mem_akeys_of_alookup_some {β : Type} (m : List (String × β)) (k : String)
    (w : β) (h : alookup m k = some w) : k ∈ akeys m := by
  induction m with
  | nil => simp [alookup] at h
  | cons hd tl ih =>
    obtain ⟨k₀, v₀⟩ := hd
    by_cases h₀ : k₀ = k
    · simp [akeys, h₀]
    · simp [alookup, h₀] at h
      simp only [akeys, List.map_cons, List.mem_cons]
      exact Or.inr (by simpa [akeys] using ih h)

theorem akeys_nodup_aset {β : Type} (m : List (String × β)) (k : String) (v : β)
    (h : (akeys m).Nodup) : (akeys (aset m k v)).Nodup := by
  rcases ho : alookup m k with _ | v₀
  · rw [akeys_aset_of_not_mem m k v ho]
    refine List.Nodup.append h (List.nodup_singleton k) ?_
    intro a ha hb
    simp only [List.mem_singleton] at hb
    subst hb
    exact absurd (alookup_isSome_of_mem_akeys m a ha) (by simp [ho])
  · rw [akeys_aset_of_mem m k v (by simp [ho])]
    exact h

theorem akeys_nodup_aerase {β : Type} (m : List (String × β)) (k : String)
    (h : (akeys m).Nodup) : (akeys (aerase m k)).Nodup :=
  ((aerase_sublist m k).map Prod.fst).nodup h

theorem alookup_aerase_self {β : Type} (m : List (String × β)) (k : String)
    (h : (akeys m).Nodup) : alookup (aerase m k) k = none := by
  induction m with
  | nil => simp [aerase, alookup]
  | cons hd tl ih =>
    obtain ⟨k₀, v₀⟩ := hd
    simp only [akeys, List.map_cons, List.nodup_cons] at h
    by_cases h₀ : k₀ = k
    · subst h₀
      simp only [aerase, if_pos rfl]
      rcases ho : alookup tl k₀ with _ | w
      · exact ho
      · exact absurd (mem_akeys_of_alookup_some tl k₀ w ho) (by simpa [akeys] using h.1)
    · simp only [aerase, alookup, if_neg h₀]
      exact ih h.2

/-! ## Data model of `server.js` -/

/-- Outcome of invoking an asset-class market-data handler: the handler may
return a payload, return `null` (the STOCK/FOREX handlers when
`ALPHA_VANTAGE_KEY` is unset), or throw (network failure or a provider
`Error Message`, both of which surface as a thrown `Error` in the tick's
`try` block). -/
inductive FetchResult where
  | ok (payload : String)
  | nullRes
  | err (msg : String)
deriving DecidableEq, Repr

/-- A live `setInterval` timer: its handle (`id`), the subscription key it
polls, and its interval in milliseconds.  A timer stays live until
`clearInterval` is called on its handle, even if the `pollingTimers` map
entry that held the handle has been overwritten. -/
structure LiveTimer where
  id : Nat
  key : String
  interval : Nat
deriving DecidableEq, Repr

/-- Acknowledgment messages emitted to a single socket by the subscribe and
unsubscribe handlers. -/
inductive Msg where
  | subscribed (assetType symbol : String)
  | unsubscribed (assetType symbol : String)
deriving DecidableEq, Repr

/-- A `market_update` event payload. -/
structure Update where
  assetType : String
  symbol : String
  data : String
  timestamp : String
deriving DecidableEq, Repr

/-- Console output relevant to the claims: the `console.warn` for a missing
handler and the `console.error` for a failed fetch. -/
inductive LogEntry where
  | warnNoHandler (assetType : String)
  | fetchError (key msg : String)
deriving DecidableEq, Repr

/-- The server's mutable state: the `subscriptions` map (key → `Set` of
socket ids, modelled as a duplicate-free list in insertion order), the
`pollingTimers` map (key → interval handle), the live interval timers,
a counter supplying fresh timer handles, the set of connected sockets
(what `io.engine.clientsCount` counts), and the Redis cache
(cache key → (stringified value, TTL in seconds)). -/
structure State where
  subs : List (String × List String)
  timers : List (String × Nat)
  live : List LiveTimer
  nextT : Nat
  conns : List String
  cache : List (String × (String × Nat))
deriving DecidableEq, Repr

/-- The state at server start: every map empty, no connections, no timers. -/
def initialState : State := ⟨[], [], [], 0, [], []⟩

/-- Poll intervals per asset class in milliseconds, from the
`pollingIntervals` object literal. -/
def pollingIntervals (assetType : String) : Option Nat :=
  match assetType with
  | "STOCK" => some 5000
  | "CRYPTO" => some 3000
  | "FOREX" => some 10000
  | "BOND" => some 60000
  | "COMMODITY" => some 30000
  | "INDEX" => some 10000
  | "ETF" => some 5000
  | "ATF" => some 300000
  | "REAL_ESTATE" => some 3600000
  | _ => none

/-- The subscription key: `` `${assetType}:${symbol}` ``. -/
def subKey (assetType symbol : String) : String :=
  assetType ++ ":" ++ symbol

/-- The `marketDataHandlers` object: only STOCK, CRYPTO and FOREX have
entries.  Each handler is abstracted over the configured
`ALPHA_VANTAGE_KEY` (`apiKey`) and the upstream HTTP exchange (`net`, an
`Except` carrying either the parsed response body or the message of the
error the handler throws).  STOCK and FOREX return `null` before touching
the network when no key is configured; CRYPTO ignores the key. -/
def marketDataHandlers (assetType : String) :
    Option (Option String → Except String String → FetchResult) :=
  match assetType with
  | "STOCK" => some (fun apiKey net =>
      match apiKey with
      | none => .nullRes
      | some _ =>
        match net with
        | .ok p => .ok p
        | .error m => .err m)
  | "CRYPTO" => some (fun _ net =>
      match net with
      | .ok p => .ok p
      | .error m => .err m)
  | "FOREX" => some (fun apiKey net =>
      match apiKey with
      | none => .nullRes
      | some _ =>
        match net with
        | .ok p => .ok p
        | .error m => .err m)
  | _ => none

/-! ## Operations of `server.js` -/

/-- `startPolling(assetType, symbol)`: create a fresh interval timer with
the class's interval (default 10000 ms), and store its handle in
`pollingTimers` — overwriting, without clearing, any handle already
there. -/
def startPolling (assetType symbol : String) (s : State) : State :=
  let key := subKey assetType symbol
  let interval := (pollingIntervals assetType).getD 10000
  let t := s.nextT
  { s with live := s.live ++ [⟨t, key, interval⟩],
           timers := aset s.timers key t,
           nextT := t + 1 }

/-- `stopPolling(subscriptionKey)`: if `pollingTimers` holds a handle for
the key, clear that interval and drop the map entry; otherwise no-op. -/
def stopPolling (key : String) (s : State) : State :=
  match alookup s.timers key with
  | some t =>
      { s with live := s.live.filter (fun e => e.id ≠ t),
               timers := aerase s.timers key }
  | none => s

/-- The `subscribe` event handler: ensure a subscriber set exists for the
key, add the socket id to it, call `startPolling` when the set's size is 1
after the add, and always emit `subscribed`. -/
def subscribe (c assetType symbol : String) (s : State) : State × List Msg :=
  let key := subKey assetType symbol
  let cur := (alookup s.subs key).getD []
  let cur' := if c ∈ cur then cur else cur ++ [c]
  let s1 := { s with subs := aset s.subs key cur' }
  let s2 := if cur'.length = 1 then startPolling assetType symbol s1 else s1
  (s2, [Msg.subscribed assetType symbol])

/-- The `unsubscribe` event handler: if the key has a subscriber set, remove
the socket id from it, and when the set becomes empty call `stopPolling` and
delete the key from `subscriptions`; always emit `unsubscribed`. -/
def unsubscribe (c assetType symbol : String) (s : State) : State × List Msg :=
  let key := subKey assetType symbol
  match alookup s.subs key with
  | none => (s, [Msg.unsubscribed assetType symbol])
  | some l =>
    let l' := l.filter (fun x => x ≠ c)
    if l'.isEmpty then
      let s1 := { s with subs := aset s.subs key l' }
      let s2 := stopPolling key s1
      ({ s2 with subs := aerase s2.subs key }, [Msg.unsubscribed assetType symbol])
    else
      ({ s with subs := aset s.subs key l' }, [Msg.unsubscribed assetType symbol])

/-- One step of the `disconnect` handler's loop body for a single key:
delete the socket id from that key's subscriber set; if the set becomes
empty, `stopPolling(key)` and delete the key from `subscriptions`. -/
def dropStep (c : String) (s : State) (key : String) : State :=
  match alookup s.subs key with
  | none => s
  | some l =>
    let l' := l.filter (fun x => x ≠ c)
    if l'.isEmpty then
      let s1 := stopPolling key { s with subs := aset s.subs key l' }
      { s1 with subs := aerase s1.subs key }
    else
      { s with subs := aset s.subs key l' }

/-- The `disconnect` event handler: iterate over all subscription entries,
removing the socket from each, stopping polling for keys left with no
subscribers; socket.io also drops the connection itself (so
`io.engine.clientsCount` decreases). -/
def dropConnection (c : String) (s : State) : State :=
  let s' := (akeys s.subs).foldl (dropStep c) s
  { s' with conns := s'.conns.filter (fun x => x ≠ c) }

/-- A new socket connection (socket.io `connection` event): the socket id is
added to the set of connected clients. -/
def connect (c : String) (s : State) : State :=
  { s with conns := s.conns ++ [c] }

/-- Completion of one interval tick for `(assetType, symbol)`, given the
configured API key, the upstream exchange outcome, the current wall-clock
string, and the server state at completion time.  Returns the new state,
the `market_update` emissions (socket id paired with the update), and the
console log entries.  On success the payload is written to Redis with
`setEx(..., 60, ...)` and then emitted to the subscribers read from
`subscriptions` at completion time; a missing handler warns and returns; a
`null` payload does nothing; a thrown error is caught and logged. -/
def tick (assetType symbol : String) (apiKey : Option String)
    (net : Except String String) (now : String) (s : State) :
    State × List (String × Update) × List LogEntry :=
  let key := subKey assetType symbol
  match marketDataHandlers assetType with
  | none => (s, [], [LogEntry.warnNoHandler assetType])
  | some h =>
    match h apiKey net with
    | .err m => (s, [], [LogEntry.fetchError key m])
    | .nullRes => (s, [], [])
    | .ok p =>
      let s' := { s with cache := aset s.cache ("market_data:" ++ key) (p, 60) }
      let emits :=
        match alookup s.subs key with
        | none => ([] : List (String × Update))
        | some subscribers =>
            subscribers.map (fun cid => (cid, ⟨assetType, symbol, p, now⟩))
      (s', emits, [])

/-- Response body of `GET /health`. -/
structure Health where
  status : String
  timestamp : String
  connections : Nat
deriving DecidableEq, Repr

/-- The `/health` endpoint: returns a status string, the current time, and
`io.engine.clientsCount`. -/
def health (now : String) (s : State) : Health :=
  ⟨"healthy", now, s.conns.length⟩

/-- The number of currently active polling tasks (entries of
`pollingTimers`). -/
def activePollCount (s : State) : Nat :=
  s.timers.length

/-- The live timers polling a given subscription key. -/
def liveFor (s : State) (key : String) : List LiveTimer :=
  s.live.filter (fun e => e.key = key)

/-! ## Theorems -/

/-- C1: the claimed invariant "each key with a non-empty subscriber set has
at most one live timer" fails on the code.  When a connection that is
already the sole subscriber of a key subscribes to it again, the set's size
is still 1 after the (no-op) add, so the handler calls `startPolling` a
second time; the new interval handle overwrites the old one in
`pollingTimers` without `clearInterval`, leaving two live interval timers
for the key (while the map holds a single entry). -/
theorem C1_double_subscribe_leaks_timer :
    (liveFor (subscribe "c1" "STOCK" "AAPL"
        (subscribe "c1" "STOCK" "AAPL" initialState).1).1 "STOCK:AAPL").length = 2 ∧
    akeys (subscribe "c1" "STOCK" "AAPL"
        (subscribe "c1" "STOCK" "AAPL" initialState).1).1.timers = ["STOCK:AAPL"] ∧
    alookup (subscribe "c1" "STOCK" "AAPL"
        (subscribe "c1" "STOCK" "AAPL" initialState).1).1.subs "STOCK:AAPL"
      = some ["c1"] := by
  decide

/-- C7: `subscribe` is not idempotent.  Subscribing the same connection to
the same key twice in a row triggers a second `startPolling` (the
`size === 1` check is true again after the no-op `Set.add`), so the state
after two calls has two live interval timers where the state after one call
has one — not "one entry, one scheduler start". -/
theorem C7_second_subscribe_starts_polling_again :
    (subscribe "c1" "STOCK" "AAPL"
        (subscribe "c1" "STOCK" "AAPL" initialState).1).1.live.length = 2 ∧
    (subscribe "c1" "STOCK" "AAPL" initialState).1.live.length = 1 ∧
    (subscribe "c1" "STOCK" "AAPL" (subscribe "c1" "STOCK" "AAPL" initialState).1).1
      ≠ (subscribe "c1" "STOCK" "AAPL" initialState).1 := by
  decide

/-- C5 counterexample: subscribing with the asset class "BANANA", which is
outside the closed enumeration, does not fail: the connection is recorded
in the key's subscriber set, a polling timer is started (with the default
10000 ms interval), and the `subscribed` success acknowledgment is sent.
There is no `InvalidKey` rejection anywhere in the subscribe handler. -/
theorem C5_unknown_class_accepted :
    (subscribe "c1" "BANANA" "X" initialState).2 = [Msg.subscribed "BANANA" "X"] ∧
    alookup (subscribe "c1" "BANANA" "X" initialState).1.subs "BANANA:X" = some ["c1"] ∧
    liveFor (subscribe "c1" "BANANA" "X" initialState).1 "BANANA:X"
      = [⟨0, "BANANA:X", 10000⟩] := by
  decide

/-- C5 (amended): the subscribe handler performs no asset-class validation
at all: for every connection, asset class and symbol, it acknowledges with
`subscribed` and records the connection in the key's subscriber set. -/
theorem C5_subscribe_accepts_every_class (c a y : String) (s : State) :
    (subscribe c a y s).2 = [Msg.subscribed a y] ∧
    c ∈ (alookup (subscribe c a y s).1.subs (subKey a y)).getD [] := by
  have hsubs : (subscribe c a y s).1.subs
      = aset s.subs (subKey a y)
          (if c ∈ (alookup s.subs (subKey a y)).getD []
           then (alookup s.subs (subKey a y)).getD []
           else (alookup s.subs (subKey a y)).getD [] ++ [c]) := by
    simp only [subscribe]
    split <;> (split <;> rfl)
  refine ⟨by simp [subscribe], ?_⟩
  rw [hsubs, alookup_aset_self]
  by_cases h : c ∈ (alookup s.subs (subKey a y)).getD [] <;> simp [h]

/-- C8 counterexample: a successful STOCK tick writes the snapshot to Redis
with the hardcoded TTL 60, whereas twice the class-specific poll interval
for STOCK is 10 seconds. -/
theorem C8_ttl_is_60_not_twice_interval :
    alookup (tick "STOCK" "AAPL" (some "k") (Except.ok "p0") "t0" initialState).1.cache
        "market_data:STOCK:AAPL" = some ("p0", 60) ∧
    2 * ((pollingIntervals "STOCK").getD 10000 / 1000) = 10 ∧
    (60 : Nat) ≠ 10 := by
  decide

/-- C8 (amended): every successful fetch is cached with the fixed TTL of 60
seconds, regardless of the key's asset class and poll interval. -/
theorem C8_success_writes_ttl_60 (a y p now : String) (apiKey : Option String)
    (net : Except String String) (s : State)
    (hdl : Option String → Except String String → FetchResult)
    (hh : marketDataHandlers a = some hdl) (hok : hdl apiKey net = .ok p) :
    alookup (tick a y apiKey net now s).1.cache ("market_data:" ++ subKey a y)
      = some (p, 60) := by
  simp only [tick, hh, hok]
  exact alookup_aset_self ..

/-- Witness for C8 (amended): a concrete successful CRYPTO tick is cached
with TTL 60. -/
theorem C8_success_writes_ttl_60_w :
    alookup (tick "CRYPTO" "bitcoin" none (Except.ok "px") "t1" initialState).1.cache
      ("market_data:" ++ subKey "CRYPTO" "bitcoin") = some ("px", 60) :=
  C8_success_writes_ttl_60 "CRYPTO" "bitcoin" "px" "t1" none (Except.ok "px")
    initialState _ rfl rfl

/-- C9 counterexample: two server states with the same connected clients but
a different number of active polling tasks produce the same `/health`
response, so the response cannot be reporting the number of active polling
tasks — it carries only status, timestamp and connection count. -/
theorem C9_health_omits_poll_count :
    health "t0" (connect "a" initialState)
      = health "t0" (subscribe "a" "STOCK" "AAPL" (connect "a" initialState)).1 ∧
    activePollCount (connect "a" initialState) = 0 ∧
    activePollCount (subscribe "a" "STOCK" "AAPL" (connect "a" initialState)).1 = 1 := by
  decide

/-- C9 (amended): the `/health` endpoint reports the current connection
count (plus a status string and a timestamp); its response is a function of
the connected-client set alone, and a new connection raises the reported
count by one. -/
theorem C9_health_reports_connections (now : String) (s s' : State) (c : String) :
    (health now s).connections = s.conns.length ∧
    (s'.conns = s.conns → health now s' = health now s) ∧
    (health now (connect c s)).connections = (health now s).connections + 1 := by
  refine ⟨rfl, ?_, ?_⟩
  · intro h
    simp [health, h]
  · simp [health, connect]

/-- Witness for C9 (amended): concrete instance, with a second state that
has a polling task but the same (empty) connection set. -/
theorem C9_health_reports_connections_w :
    (health "t" initialState).connections = initialState.conns.length ∧
    health "t" (⟨[("k", ["z"])], [("k", 0)], [⟨0, "k", 10000⟩], 1, [], []⟩ : State)
      = health "t" initialState ∧
    (health "t" (connect "a" initialState)).connections
      = (health "t" initialState).connections + 1 := by
  obtain ⟨h1, h2, h3⟩ := C9_health_reports_connections "t" initialState
    (⟨[("k", ["z"])], [("k", 0)], [⟨0, "k", 10000⟩], 1, [], []⟩ : State) "a"
  exact ⟨h1, h2 rfl, h3⟩

/-! ## Supporting lemmas -/

theorem stopPolling_subs (key : String) (s : State) :
    (stopPolling key s).subs = s.subs := by
  unfold stopPolling
  split <;> rfl

theorem stopPolling_conns (key : String) (s : State) :
    (stopPolling key s).conns = s.conns := by
  unfold stopPolling
  split <;> rfl

theorem tick_no_subscribers (a y : String) (apiKey : Option String)
    (net : Except String String) (now : String) (s : State)
    (h : alookup s.subs (subKey a y) = none) :
    (tick a y apiKey net now s).2.1 = [] ∧
    (tick a y apiKey net now s).1.timers = s.timers ∧
    (tick a y apiKey net now s).1.live = s.live := by
  rcases hh : marketDataHandlers a with _ | hdl
  · simp [tick, hh]
  · rcases hr : hdl apiKey net with p | _ | m
    · simp [tick, hh, hr, h]
    · simp [tick, hh, hr]
    · simp [tick, hh, hr]

/-- C6: a tick whose fetch throws is caught: the state (including the cached
snapshot and the timer maps) is left entirely unchanged and the failure is
logged with the feed key; consequently three consecutive failing ticks also
leave the state unchanged. -/
theorem C6_failed_tick_preserves_state (a y m now : String) (apiKey : Option String)
    (net : Except String String) (s : State)
    (hdl : Option String → Except String String → FetchResult)
    (hh : marketDataHandlers a = some hdl) (herr : hdl apiKey net = .err m) :
    tick a y apiKey net now s = (s, [], [LogEntry.fetchError (subKey a y) m]) ∧
    (tick a y apiKey net now
      ((tick a y apiKey net now ((tick a y apiKey net now s).1)).1)).1 = s := by
  have hstep : ∀ st : State,
      tick a y apiKey net now st = (st, [], [LogEntry.fetchError (subKey a y) m]) := by
    intro st
    simp [tick, hh, herr]
  refine ⟨hstep s, ?_⟩
  simp [hstep]

/-- Witness for C6: a CRYPTO fetch that throws leaves a concrete state
unchanged, once and three times in a row. -/
theorem C6_failed_tick_preserves_state_w :
    tick "CRYPTO" "bitcoin" none (Except.error "boom") "t" initialState
      = (initialState, [], [LogEntry.fetchError (subKey "CRYPTO" "bitcoin") "boom"]) ∧
    (tick "CRYPTO" "bitcoin" none (Except.error "boom") "t"
      ((tick "CRYPTO" "bitcoin" none (Except.error "boom") "t"
        ((tick "CRYPTO" "bitcoin" none (Except.error "boom") "t" initialState).1)).1)).1
      = initialState :=
  C6_failed_tick_preserves_state "CRYPTO" "bitcoin" "boom" "t" none
    (Except.error "boom") initialState _ rfl rfl

/-- C10: the tick writes to the cache and publishes exactly when a handler
exists for the asset class and it returns a non-null payload.  Handlers
exist for STOCK, CRYPTO and FOREX only; a missing handler warns and leaves
the state unchanged with no emissions; a null or thrown result leaves the
state unchanged with no emissions; in particular STOCK and FOREX ticks with
no `ALPHA_VANTAGE_KEY` configured return null and produce neither a cache
write nor a `market_update`.  On a non-null result the cache is written and
the publish happens: one `market_update` is emitted per connection in the
key's subscriber set read at completion time (and none when the key has no
set), while `subscriptions`, `pollingTimers`, live timers and connections
are untouched. -/
theorem C10_tick_cache_publish_guards (a y now : String) (apiKey : Option String)
    (net : Except String String) (s : State) :
    ((marketDataHandlers a).isSome ↔ (a = "STOCK" ∨ a = "CRYPTO" ∨ a = "FOREX")) ∧
    (marketDataHandlers a = none →
      tick a y apiKey net now s = (s, [], [LogEntry.warnNoHandler a])) ∧
    (∀ hdl, marketDataHandlers a = some hdl → (∀ p, hdl apiKey net ≠ .ok p) →
      (tick a y apiKey net now s).1 = s ∧ (tick a y apiKey net now s).2.1 = []) ∧
    (∀ hdl p, marketDataHandlers a = some hdl → hdl apiKey net = .ok p →
      (tick a y apiKey net now s).1.cache
        = aset s.cache ("market_data:" ++ subKey a y) (p, 60) ∧
      (tick a y apiKey net now s).2.1
        = (match alookup s.subs (subKey a y) with
           | none => ([] : List (String × Update))
           | some L => L.map (fun cid => (cid, (⟨a, y, p, now⟩ : Update)))) ∧
      (tick a y apiKey net now s).1.subs = s.subs ∧
      (tick a y apiKey net now s).1.timers = s.timers ∧
      (tick a y apiKey net now s).1.live = s.live ∧
      (tick a y apiKey net now s).1.conns = s.conns) ∧
    ((a = "STOCK" ∨ a = "FOREX") → tick a y none net now s = (s, [], [])) := by
  refine ⟨⟨?_, ?_⟩, ?_, ?_, ?_, ?_⟩
  · intro h
    unfold marketDataHandlers at h
    split at h <;> simp_all
  · intro h
    rcases h with h | h | h <;> subst h <;> rfl
  · intro h
    simp [tick, h]
  · intro hdl hh hne
    rcases hr : hdl apiKey net with p | _ | m
    · exact absurd hr (hne p)
    · simp [tick, hh, hr]
    · simp [tick, hh, hr]
  · intro hdl p hh hok
    simp [tick, hh, hok]
  · intro h
    rcases h with h | h <;> subst h <;> rfl

/-- Witness for C10: a BOND tick (no handler) leaves a concrete state
unchanged and emits nothing; a STOCK tick without an API key does the same
even when the upstream response would have been a success; and a successful
CRYPTO tick on a state with one subscriber publishes to that subscriber. -/
theorem C10_tick_cache_publish_guards_w :
    tick "BOND" "US10Y" (some "k") (Except.ok "p") "t" initialState
      = (initialState, [], [LogEntry.warnNoHandler "BOND"]) ∧
    tick "STOCK" "AAPL" none (Except.ok "p") "t" initialState
      = (initialState, [], []) ∧
    (tick "CRYPTO" "bitcoin" none (Except.ok "px") "t"
        (subscribe "c1" "CRYPTO" "bitcoin" initialState).1).2.1
      = [("c1", (⟨"CRYPTO", "bitcoin", "px", "t"⟩ : Update))] :=
  ⟨(C10_tick_cache_publish_guards "BOND" "US10Y" "t" (some "k")
      (Except.ok "p") initialState).2.1 rfl,
   (C10_tick_cache_publish_guards "STOCK" "AAPL" "t" (some "k")
      (Except.ok "p") initialState).2.2.2.2 (Or.inl rfl),
   (((C10_tick_cache_publish_guards "CRYPTO" "bitcoin" "t" none
      (Except.ok "px")
      (subscribe "c1" "CRYPTO" "bitcoin" initialState).1).2.2.2.1
        _ "px" rfl rfl).2.1).trans (by decide)⟩

theorem emits_filter_pair (l : List String) (u : Update) (c : String) :
    ((l.map fun cid => (cid, u)).filter (fun e => e.1 = c)).length
      = (l.filter (fun x => x = c)).length := by
  induction l with
  | nil => rfl
  | cons x xs ih =>
    by_cases h : x = c <;> simp [List.filter_cons, h, ih]

theorem filter_eq_length_one (l : List String) (c : String) (hnd : l.Nodup)
    (hm : c ∈ l) : (l.filter (fun x => x = c)).length = 1 := by
  induction l with
  | nil => simp at hm
  | cons x xs ih =>
    simp only [List.nodup_cons] at hnd
    by_cases h : x = c
    · subst h
      have : (xs.filter (fun z => z = x)) = [] := by
        refine List.filter_eq_nil_iff.mpr ?_
        intro z hz
        simp only [decide_eq_true_eq]
        intro hzx
        exact hnd.1 (hzx ▸ hz)
      simp [List.filter_cons, this]
    · rcases List.mem_cons.mp hm with hm' | hm'
      · exact absurd hm'.symm h
      · simp [List.filter_cons, h, ih hnd.2 hm']

theorem filter_eq_length_zero (l : List String) (c : String) (hm : c ∉ l) :
    (l.filter (fun x => x = c)).length = 0 := by
  have : (l.filter (fun x => x = c)) = [] := by
    refine List.filter_eq_nil_iff.mpr ?_
    intro z hz
    simp only [decide_eq_true_eq]
    intro hzc
    exact hm (hzc ▸ hz)
  simp [this]

theorem dropStep_subs_self (c : String) (s : State) (k : String)
    (h : (akeys s.subs).Nodup) :
    c ∉ (alookup (dropStep c s k).subs k).getD [] := by
  unfold dropStep
  rcases ho : alookup s.subs k with _ | l
  · simp [ho]
  · simp only
    by_cases he : (l.filter (fun x => x ≠ c)).isEmpty
    · simp only [he, if_pos, stopPolling_subs]
      rw [alookup_aerase_self _ _ (akeys_nodup_aset s.subs k _ h)]
      simp
    · simp only [he, if_neg, Bool.false_eq_true, not_false_eq_true,
        alookup_aset_self, Option.getD_some]
      simp

theorem dropStep_subs_other (c : String) (s : State) (k k' : String)
    (h : k ≠ k') : alookup (dropStep c s k).subs k' = alookup s.subs k' := by
  unfold dropStep
  rcases ho : alookup s.subs k with _ | l
  · rfl
  · simp only
    by_cases he : (l.filter (fun x => x ≠ c)).isEmpty
    · simp only [he, if_pos, stopPolling_subs]
      rw [alookup_aerase_ne _ _ _ h, alookup_aset_ne _ _ _ _ h]
    · simp only [he, Bool.false_eq_true, if_neg, not_false_eq_true]
      exact alookup_aset_ne _ _ _ _ h

theorem dropStep_keys_nodup (c : String) (s : State) (k : String)
    (h : (akeys s.subs).Nodup) : (akeys (dropStep c s k).subs).Nodup := by
  unfold dropStep
  rcases ho : alookup s.subs k with _ | l
  · exact h
  · simp only
    by_cases he : (l.filter (fun x => x ≠ c)).isEmpty
    · simp only [he, if_pos, stopPolling_subs]
      exact akeys_nodup_aerase _ _ (akeys_nodup_aset _ _ _ h)
    · simp only [he, Bool.false_eq_true, if_neg, not_false_eq_true]
      exact akeys_nodup_aset _ _ _ h

theorem dropFold_not_subscribed (c : String) :
    ∀ (keys : List String) (s : State) (k : String),
      (akeys s.subs).Nodup →
      (k ∈ keys ∨ c ∉ (alookup s.subs k).getD []) →
      c ∉ (alookup ((keys.foldl (dropStep c) s)).subs k).getD [] := by
  intro keys
  induction keys with
  | nil =>
    intro s k hnd hor
    rcases hor with h | h
    · exact absurd h (List.not_mem_nil k)
    · simpa using h
  | cons k₀ rest ih =>
    intro s k hnd hor
    have hnd' := dropStep_keys_nodup c s k₀ hnd
    refine ih (dropStep c s k₀) k hnd' ?_
    by_cases hk : k ∈ rest
    · exact Or.inl hk
    · right
      rcases hor with hmem | hnotin
      · have hkk : k = k₀ := by
          rcases List.mem_cons.mp hmem with h | h
          · exact h
          · exact absurd h hk
        subst hkk
        exact dropStep_subs_self c s k hnd
      · by_cases hkk : k₀ = k
        · subst hkk
          exact dropStep_subs_self c s k₀ hnd
        · rw [dropStep_subs_other c s k₀ k hkk]
          exact hnotin

theorem dropConnection_not_subscribed (c : String) (s : State) (k : String)
    (hnd : (akeys s.subs).Nodup) :
    c ∉ (alookup (dropConnection c s).subs k).getD [] := by
  show c ∉ (alookup ((akeys s.subs).foldl (dropStep c) s).subs k).getD []
  refine dropFold_not_subscribed c (akeys s.subs) s k hnd ?_
  rcases ho : alookup s.subs k with _ | l
  · simp
  · exact Or.inl (mem_akeys_of_alookup_some s.subs k l ho)

theorem dropStep_preserves_none (c : String) (s : State) (k₀ k : String)
    (h : alookup s.subs k = none) : alookup (dropStep c s k₀).subs k = none := by
  by_cases hk : k₀ = k
  · subst hk
    simp [dropStep, h]
  · rw [dropStep_subs_other c s k₀ k hk]
    exact h

theorem dropFold_erases_sole (c : String) :
    ∀ (keys : List String) (s : State) (k : String),
      (akeys s.subs).Nodup →
      ((k ∈ keys ∧ ∃ l, alookup s.subs k = some l ∧ l.filter (fun x => x ≠ c) = [])
        ∨ alookup s.subs k = none) →
      alookup ((keys.foldl (dropStep c) s)).subs k = none := by
  intro keys
  induction keys with
  | nil =>
    intro s k hnd hor
    rcases hor with ⟨hmem, _⟩ | h
    · exact absurd hmem (List.not_mem_nil k)
    · simpa using h
  | cons k₀ rest ih =>
    intro s k hnd hor
    have hnd' := dropStep_keys_nodup c s k₀ hnd
    refine ih (dropStep c s k₀) k hnd' ?_
    rcases hor with ⟨hmem, l, hl, hfil⟩ | hnone
    · by_cases hkk : k = k₀
      · subst hkk
        right
        simp only [dropStep, hl, hfil, List.isEmpty_nil, if_pos, stopPolling_subs]
        exact alookup_aerase_self _ _ (akeys_nodup_aset s.subs k _ hnd)
      · have hrest : k ∈ rest := by
          rcases List.mem_cons.mp hmem with h | h
          · exact absurd h hkk
          · exact h
        left
        refine ⟨hrest, l, ?_, hfil⟩
        rw [dropStep_subs_other c s k₀ k (fun h => hkk h.symm)]
        exact hl
    · exact Or.inr (dropStep_preserves_none c s k₀ k hnone)

theorem dropConnection_erases_sole (c : String) (s : State) (k : String)
    (hnd : (akeys s.subs).Nodup) (h : alookup s.subs k = some [c]) :
    alookup (dropConnection c s).subs k = none := by
  show alookup ((akeys s.subs).foldl (dropStep c) s).subs k = none
  exact dropFold_erases_sole c (akeys s.subs) s k hnd
    (Or.inl ⟨mem_akeys_of_alookup_some s.subs k [c] h, [c], h, by simp⟩)

/-- C2: once the last subscriber of a key is gone — whether it unsubscribed
or its connection disconnected (both routes call `stopPolling` and remove
the key from `subscriptions`) — a fetch for that key that completes
afterwards emits no `market_update` to any connection and does not change
`pollingTimers` or the live timers: the publish step is guarded by a lookup
of the key's subscriber set at completion time, and the tick never
re-creates a timer. -/
theorem C2_stale_fetch_discarded (s : State) (c a y : String)
    (hkeys : (akeys s.subs).Nodup)
    (hlast : alookup s.subs (subKey a y) = some [c]) :
    alookup (unsubscribe c a y s).1.subs (subKey a y) = none ∧
    alookup (dropConnection c s).subs (subKey a y) = none ∧
    ∀ (apiKey : Option String) (net : Except String String) (now : String),
      ((tick a y apiKey net now (unsubscribe c a y s).1).2.1 = [] ∧
       (tick a y apiKey net now (unsubscribe c a y s).1).1.timers
         = (unsubscribe c a y s).1.timers ∧
       (tick a y apiKey net now (unsubscribe c a y s).1).1.live
         = (unsubscribe c a y s).1.live) ∧
      ((tick a y apiKey net now (dropConnection c s)).2.1 = [] ∧
       (tick a y apiKey net now (dropConnection c s)).1.timers
         = (dropConnection c s).timers ∧
       (tick a y apiKey net now (dropConnection c s)).1.live
         = (dropConnection c s).live) := by
  have hfil : (([c] : List String).filter (fun x => x ≠ c)) = [] := by simp
  have hnone : alookup (unsubscribe c a y s).1.subs (subKey a y) = none := by
    simp only [unsubscribe, hlast, hfil, List.isEmpty_nil, if_pos, stopPolling_subs]
    exact alookup_aerase_self _ _ (akeys_nodup_aset s.subs (subKey a y) [] hkeys)
  have hdrop : alookup (dropConnection c s).subs (subKey a y) = none :=
    dropConnection_erases_sole c s (subKey a y) hkeys hlast
  refine ⟨hnone, hdrop, ?_⟩
  intro apiKey net now
  exact ⟨tick_no_subscribers a y apiKey net now _ hnone,
    tick_no_subscribers a y apiKey net now _ hdrop⟩

/-- Witness for C2: a server with exactly one subscriber for STOCK:AAPL.
After that subscriber unsubscribes, and likewise after its connection
disconnects, the key is gone from `subscriptions` and a late successful
fetch emits nothing and leaves the timer maps of the stopped state
untouched. -/
theorem C2_stale_fetch_discarded_w :
    alookup (unsubscribe "c1" "STOCK" "AAPL"
        (subscribe "c1" "STOCK" "AAPL" initialState).1).1.subs
        (subKey "STOCK" "AAPL") = none ∧
    alookup (dropConnection "c1"
        (subscribe "c1" "STOCK" "AAPL" initialState).1).subs
        (subKey "STOCK" "AAPL") = none ∧
    (((tick "STOCK" "AAPL" (some "k") (Except.ok "p") "t"
        (unsubscribe "c1" "STOCK" "AAPL"
          (subscribe "c1" "STOCK" "AAPL" initialState).1).1).2.1 = []) ∧
     ((tick "STOCK" "AAPL" (some "k") (Except.ok "p") "t"
        (unsubscribe "c1" "STOCK" "AAPL"
          (subscribe "c1" "STOCK" "AAPL" initialState).1).1).1.timers
       = (unsubscribe "c1" "STOCK" "AAPL"
          (subscribe "c1" "STOCK" "AAPL" initialState).1).1.timers) ∧
     ((tick "STOCK" "AAPL" (some "k") (Except.ok "p") "t"
        (unsubscribe "c1" "STOCK" "AAPL"
          (subscribe "c1" "STOCK" "AAPL" initialState).1).1).1.live
       = (unsubscribe "c1" "STOCK" "AAPL"
          (subscribe "c1" "STOCK" "AAPL" initialState).1).1.live)) ∧
    (((tick "STOCK" "AAPL" (some "k") (Except.ok "p") "t"
        (dropConnection "c1"
          (subscribe "c1" "STOCK" "AAPL" initialState).1)).2.1 = []) ∧
     ((tick "STOCK" "AAPL" (some "k") (Except.ok "p") "t"
        (dropConnection "c1"
          (subscribe "c1" "STOCK" "AAPL" initialState).1)).1.timers
       = (dropConnection "c1"
          (subscribe "c1" "STOCK" "AAPL" initialState).1).timers) ∧
     ((tick "STOCK" "AAPL" (some "k") (Except.ok "p") "t"
        (dropConnection "c1"
          (subscribe "c1" "STOCK" "AAPL" initialState).1)).1.live
       = (dropConnection "c1"
          (subscribe "c1" "STOCK" "AAPL" initialState).1).live)) := by
  obtain ⟨h1, h2, h3⟩ := C2_stale_fetch_discarded
    (subscribe "c1" "STOCK" "AAPL" initialState).1 "c1" "STOCK" "AAPL"
    (by decide) (by decide)
  obtain ⟨h4, h5⟩ := h3 (some "k") (Except.ok "p") "t"
  exact ⟨h1, h2, h4, h5⟩

/-- C3: for a successful fetch, every connection in the key's subscriber set
at publish time receives the `market_update` exactly once, every connection
outside it receives it zero times, and a connection removed by the
`disconnect` cleanup is in no subscriber set afterwards, so a subsequent
publish for any key reaches it zero times. -/
theorem C3_fanout_exactly_once (a y p now : String) (apiKey : Option String)
    (net : Except String String) (s : State) (L : List String)
    (hdl : Option String → Except String String → FetchResult)
    (hh : marketDataHandlers a = some hdl) (hok : hdl apiKey net = .ok p)
    (hsubs : alookup s.subs (subKey a y) = some L) (hnd : L.Nodup) :
    (∀ c, c ∈ L →
      (((tick a y apiKey net now s).2.1).filter (fun e => e.1 = c)).length = 1) ∧
    (∀ c, c ∉ L →
      (((tick a y apiKey net now s).2.1).filter (fun e => e.1 = c)).length = 0) ∧
    (∀ c₀ s₀, (akeys s₀.subs).Nodup →
      (((tick a y apiKey net now (dropConnection c₀ s₀)).2.1).filter
        (fun e => e.1 = c₀)).length = 0) := by
  have hemits : (tick a y apiKey net now s).2.1
      = L.map (fun cid => (cid, (⟨a, y, p, now⟩ : Update))) := by
    simp [tick, hh, hok, hsubs]
  refine ⟨?_, ?_, ?_⟩
  · intro c hc
    rw [hemits, emits_filter_pair]
    exact filter_eq_length_one L c hnd hc
  · intro c hc
    rw [hemits, emits_filter_pair]
    exact filter_eq_length_zero L c hc
  · intro c₀ s₀ hnd₀
    have hdropped := dropConnection_not_subscribed c₀ s₀ (subKey a y) hnd₀
    rcases ho : alookup (dropConnection c₀ s₀).subs (subKey a y) with _ | L'
    · simp [tick, hh, hok, ho]
    · have hemits' : (tick a y apiKey net now (dropConnection c₀ s₀)).2.1
          = L'.map (fun cid => (cid, (⟨a, y, p, now⟩ : Update))) := by
        simp [tick, hh, hok, ho]
      rw [hemits', emits_filter_pair]
      refine filter_eq_length_zero L' c₀ ?_
      simpa [ho] using hdropped

/-- Witness for C3: connections A and B subscribed to STOCK:AAPL and a
successful fetch: A and B each receive exactly one update, C receives none,
and after A disconnects, a further publish reaches A zero times. -/
theorem C3_fanout_exactly_once_w :
    (((tick "STOCK" "AAPL" (some "k") (Except.ok "p") "t"
        (subscribe "B" "STOCK" "AAPL"
          (subscribe "A" "STOCK" "AAPL" initialState).1).1).2.1).filter
      (fun e => e.1 = "A")).length = 1 ∧
    (((tick "STOCK" "AAPL" (some "k") (Except.ok "p") "t"
        (subscribe "B" "STOCK" "AAPL"
          (subscribe "A" "STOCK" "AAPL" initialState).1).1).2.1).filter
      (fun e => e.1 = "B")).length = 1 ∧
    (((tick "STOCK" "AAPL" (some "k") (Except.ok "p") "t"
        (subscribe "B" "STOCK" "AAPL"
          (subscribe "A" "STOCK" "AAPL" initialState).1).1).2.1).filter
      (fun e => e.1 = "C")).length = 0 ∧
    (((tick "STOCK" "AAPL" (some "k") (Except.ok "p") "t"
        (dropConnection "A"
          (subscribe "B" "STOCK" "AAPL"
            (subscribe "A" "STOCK" "AAPL" initialState).1).1)).2.1).filter
      (fun e => e.1 = "A")).length = 0 := by
  obtain ⟨h1, h2, h3⟩ := C3_fanout_exactly_once "STOCK" "AAPL" "p" "t" (some "k")
    (Except.ok "p")
    (subscribe "B" "STOCK" "AAPL" (subscribe "A" "STOCK" "AAPL" initialState).1).1
    ["A", "B"] _ rfl rfl (by decide) (by decide)
  exact ⟨h1 "A" (by decide), h1 "B" (by decide), h2 "C" (by decide),
    h3 "A" (subscribe "B" "STOCK" "AAPL"
      (subscribe "A" "STOCK" "AAPL" initialState).1).1 (by decide)⟩

end Realtime
